import Mathlib

set_option maxRecDepth 8000

/-!
Verification development for the Medicine Tracker backend
(`backend/server.py` and `backend/util/generate_filename.py`).

Strings are embedded as `List Char`; bytes of an uploaded file as
`List Nat`.  Nondeterministic runtime inputs (UTC timestamps, random
UUID tokens, generated record identifiers) are passed as explicit
parameters to the embedded functions.  Python `str.lower` is embedded
by `Char.toLower`, which agrees with it on ASCII; every character that
can reach the lower-casing step of the sanitizer's base name is ASCII,
because the substitution step has already replaced all others.
-/

/-- Strings of the Python program, embedded as lists of characters. -/
abbrev Str := List Char

/-- Convert a Lean string literal to the embedded string type. -/
def str (s : String) : Str := s.toList

/-- The character class of the regex `[a-zA-Z0-9-_\.]` in
`generate_filename.py` line 10 (the complement is substituted). -/
def isAllowedChar (c : Char) : Bool :=
  (65 ≤ c.toNat && c.toNat ≤ 90) || (97 ≤ c.toNat && c.toNat ≤ 122) ||
  (48 ≤ c.toNat && c.toNat ≤ 57) || c == '-' || c == '_' || c == '.'

/-- Index of the last occurrence of `c` in `l`, or `-1` when absent:
Python `str.rfind`. -/
def rfindIdx (c : Char) (l : Str) : Int :=
  match l.reverse.findIdx? (· == c) with
  | some i => (l.length : Int) - 1 - (i : Int)
  | none => -1

/-- Embeds `os.path.splitext` (posix generic splitext with separator `/`):
split off the extension at the last dot, unless every character of the
base name before that dot is itself a dot. -/
def splitext (p : Str) : Str × Str :=
  let sepIdx := rfindIdx '/' p
  let dotIdx := rfindIdx '.' p
  if sepIdx < dotIdx then
    let stem := (p.drop (sepIdx + 1).toNat).take (dotIdx - sepIdx - 1).toNat
    if stem.all (· == '.') then (p, [])
    else (p.take dotIdx.toNat, p.drop dotIdx.toNat)
  else (p, [])

/-- Python `str.strip` with a single strip character: remove every
leading and trailing occurrence of `c`. -/
def stripBoth (c : Char) (l : Str) : Str :=
  ((l.dropWhile (· == c)).reverse.dropWhile (· == c)).reverse

/-- Embeds `generate_filename` from `backend/util/generate_filename.py`.
`ts` stands for the runtime value of
`datetime.utcnow().strftime('%Y%m%d%H%M%S')` (a 14-digit string) and
`tok` for `str(uuid.uuid4())[:8]` (8 lowercase hex characters); both
are nondeterministic at runtime and are therefore parameters here. -/
def generate_filename (filename ts tok : Str) : Str :=
  let pair := splitext filename
  let name0 := pair.1
  let ext := pair.2
  let name1 := stripBoth '_' (name0.map (fun c => if isAllowedChar c then c else '_'))
  let name := name1.map Char.toLower
  name ++ ['_'] ++ ts ++ ['_'] ++ tok ++ ext.map Char.toLower

/-! ## Calendar arithmetic (embedding of `datetime`) -/

/-- Gregorian leap-year rule, as used by Python `datetime`. -/
def isLeap (y : Nat) : Bool :=
  y % 4 == 0 && (y % 100 != 0 || y % 400 == 0)

/-- Number of days in month `m` of year `y`. -/
def daysInMonth (y m : Nat) : Nat :=
  if m == 2 then (if isLeap y then 29 else 28)
  else if m == 4 || m == 6 || m == 9 || m == 11 then 30
  else 31

/-- A calendar date. -/
structure Ymd where
  year : Nat
  month : Nat
  day : Nat
deriving DecidableEq, Repr

/-- A valid proleptic Gregorian date (year at least 1). -/
def Ymd.Valid (x : Ymd) : Prop :=
  1 ≤ x.year ∧ 1 ≤ x.month ∧ x.month ≤ 12 ∧ 1 ≤ x.day ∧ x.day ≤ daysInMonth x.year x.month

instance (x : Ymd) : Decidable x.Valid := by
  unfold Ymd.Valid; infer_instance

/-- The next calendar day. -/
def nextDay (x : Ymd) : Ymd :=
  if x.day < daysInMonth x.year x.month then ⟨x.year, x.month, x.day + 1⟩
  else if x.month < 12 then ⟨x.year, x.month + 1, 1⟩
  else ⟨x.year + 1, 1, 1⟩

/-- The previous calendar day. -/
def prevDay (x : Ymd) : Ymd :=
  if 1 < x.day then ⟨x.year, x.month, x.day - 1⟩
  else if 1 < x.month then ⟨x.year, x.month - 1, daysInMonth x.year (x.month - 1)⟩
  else ⟨x.year - 1, 12, 31⟩

/-- Embeds `date + timedelta(days=d)` of Python `datetime`: move `d` calendar
days (CPython realizes this through the proleptic Gregorian ordinal;
embedded here as iterated successor/predecessor), raising
`OverflowError` (`none`) when the result leaves the supported year
range `MINYEAR = 1 .. MAXYEAR = 9999`. -/
def addDaysChecked (x : Ymd) (d : Int) : Option Ymd :=
  let r := if 0 ≤ d then nextDay^[d.toNat] x else prevDay^[(-d).toNat] x
  if 1 ≤ r.year ∧ r.year ≤ 9999 then some r else none

/-- Cumulative days before month `m` in year `y` (spec-side helper for
the day-number formula). -/
def daysBeforeMonth (y m : Nat) : Nat :=
  (match m with
   | 1 => 0 | 2 => 31 | 3 => 59 | 4 => 90 | 5 => 120 | 6 => 151
   | 7 => 181 | 8 => 212 | 9 => 243 | 10 => 273 | 11 => 304 | _ => 334)
  + (if 3 ≤ m ∧ isLeap y then 1 else 0)

/-- Days in all years before year `y`. -/
def daysBeforeYear (y : Nat) : Nat :=
  (y - 1) * 365 + (y - 1) / 4 - (y - 1) / 100 + (y - 1) / 400

/-- The proleptic Gregorian ordinal of a date (0001-01-01 is day 1).
This is the standard day-number formula; "start plus d calendar days"
means the date whose day number is `dayNumber start + d`. -/
def dayNumber (x : Ymd) : Nat :=
  daysBeforeYear x.year + daysBeforeMonth x.year x.month + x.day

/-! ## ISO-8601 parsing and formatting (embedding of
`datetime.fromisoformat` / `datetime.isoformat`) -/

/-- A `datetime.datetime` value: date, time of day (microsecond 0 in
every input this program parses), and optional UTC offset in minutes
(`tzinfo`). -/
structure PyDateTime where
  date : Ymd
  hour : Nat
  minute : Nat
  second : Nat
  offMin : Option Int
deriving DecidableEq, Repr

/-- Numeric value of an ASCII digit. -/
def digitVal (c : Char) : Option Nat :=
  if 48 ≤ c.toNat ∧ c.toNat ≤ 57 then some (c.toNat - 48) else none

/-- Two ASCII digits as a number. -/
def twoDigits (a b : Char) : Option Nat :=
  match digitVal a, digitVal b with
  | some x, some y => some (10 * x + y)
  | _, _ => none

/-- Four ASCII digits as a number. -/
def fourDigits (a b c d : Char) : Option Nat :=
  match twoDigits a b, twoDigits c d with
  | some x, some y => some (100 * x + y)
  | _, _ => none

/-- Time-of-day part of `datetime.fromisoformat`, for the `HH:MM:SS`
form with an optional `±HH:MM` offset (the subset of the accepted
grammar that this development needs; other forms are not produced by
the program's callers). -/
def parseIsoTime (t : Str) : Option (Nat × Nat × Nat × Option Int) :=
  match t with
  | [h1, h2, ':', m1, m2, ':', s1, s2] =>
    match twoDigits h1 h2, twoDigits m1 m2, twoDigits s1 s2 with
    | some h, some mi, some se =>
      if h ≤ 23 ∧ mi ≤ 59 ∧ se ≤ 59 then some (h, mi, se, none) else none
    | _, _, _ => none
  | [h1, h2, ':', m1, m2, ':', s1, s2, sg, o1, o2, ':', o3, o4] =>
    match twoDigits h1 h2, twoDigits m1 m2, twoDigits s1 s2,
          twoDigits o1 o2, twoDigits o3 o4 with
    | some h, some mi, some se, some oh, some om =>
      if h ≤ 23 ∧ mi ≤ 59 ∧ se ≤ 59 ∧ oh ≤ 23 ∧ om ≤ 59 then
        if sg == '+' then some (h, mi, se, some ((oh * 60 + om : Nat) : Int))
        else if sg == '-' then some (h, mi, se, some (-((oh * 60 + om : Nat) : Int)))
        else none
      else none
    | _, _, _, _, _ => none
  | _ => none

/-- Embeds `datetime.fromisoformat`: the first ten characters must be
`YYYY-MM-DD`; character eleven (any character) separates an optional
time part.  Out-of-range components raise `ValueError` (`none`). -/
def pyFromIsoformat (s : Str) : Option PyDateTime :=
  match s with
  | y1 :: y2 :: y3 :: y4 :: '-' :: m1 :: m2 :: '-' :: e1 :: e2 :: rest =>
    match fourDigits y1 y2 y3 y4, twoDigits m1 m2, twoDigits e1 e2 with
    | some y, some mo, some dy =>
      if 1 ≤ y ∧ 1 ≤ mo ∧ mo ≤ 12 ∧ 1 ≤ dy ∧ dy ≤ daysInMonth y mo then
        match rest with
        | [] => some ⟨⟨y, mo, dy⟩, 0, 0, 0, none⟩
        | _sep :: tstr =>
          if tstr.isEmpty then some ⟨⟨y, mo, dy⟩, 0, 0, 0, none⟩
          else
            (parseIsoTime tstr).map fun q => ⟨⟨y, mo, dy⟩, q.1, q.2.1, q.2.2.1, q.2.2.2⟩
      else none
    | _, _, _ => none
  | _ => none

/-- Decimal digits of `n`, left-padded with zeros to width `w`. -/
def padNum (w n : Nat) : Str :=
  let ds := Nat.toDigits 10 n
  List.replicate (w - ds.length) '0' ++ ds

/-- Embeds `datetime.isoformat` for a value with microsecond 0:
`YYYY-MM-DDTHH:MM:SS`, followed by `±HH:MM` when a UTC offset is
attached. -/
def pyIsoformat (dt : PyDateTime) : Str :=
  padNum 4 dt.date.year ++ ['-'] ++ padNum 2 dt.date.month ++ ['-'] ++ padNum 2 dt.date.day
  ++ ['T'] ++ padNum 2 dt.hour ++ [':'] ++ padNum 2 dt.minute ++ [':'] ++ padNum 2 dt.second
  ++ (match dt.offMin with
      | none => []
      | some o =>
        (if o < 0 then ['-'] else ['+'])
        ++ padNum 2 (o.natAbs / 60) ++ [':'] ++ padNum 2 (o.natAbs % 60))

/-- Embeds `calculate_end_date` from `server.py` lines 99-103: parse the
start date with `datetime.fromisoformat`, add
`timedelta(days=duration_days)`, return `isoformat` of the result.
A `ValueError` from parsing or an `OverflowError` from the addition is
`none`. -/
def calculate_end_date (startDate : Str) (durationDays : Int) : Option Str :=
  (pyFromIsoformat startDate).bind fun dt =>
    (addDaysChecked dt.date durationDays).map fun r =>
      pyIsoformat { dt with date := r }

/-! ## Record model and endpoints (embedding of `server.py`) -/

/-- Request body of create/update (`MedicineCreate` in `server.py`). -/
structure MedicineCreate where
  name : Str
  category : Str
  type : Str
  tags : Str
  purpose : Str
  dosage : Str
  duration_days : Option Int
  start_date : Option Str
  end_date : Option Str
  doctor_name : Option Str
  hospital_location : Option Str
  prescription_url : Option Str
deriving DecidableEq, Repr

/-- A stored medicine record (`Medicine` in `server.py`). -/
structure Medicine extends MedicineCreate where
  id : Str
  created_at : Str
  updated_at : Str
deriving DecidableEq, Repr

/-- Errors raised by the endpoints (`HTTPException` kinds, plus
`internal` for an uncaught exception such as a `ValueError` from
`fromisoformat`). -/
inductive ApiError
  | notFound
  | unsupportedType (given : Str)
  | payloadTooLarge
  | internal
deriving DecidableEq, Repr

/-- HTTP status code of each error. -/
def ApiError.status : ApiError → Nat
  | .notFound => 404
  | .unsupportedType _ => 400
  | .payloadTooLarge => 413
  | .internal => 500

/-- Python truthiness of an optional string: `None` and `''` are falsy. -/
def truthyStr : Option Str → Bool
  | none => false
  | some s => !s.isEmpty

/-- Python truthiness of an optional integer: `None` and `0` are falsy. -/
def truthyInt : Option Int → Bool
  | none => false
  | some n => n != 0

/-- The end-date step shared by `create_medicine` (lines 117-119) and
`update_medicine` (lines 147-149): when `start_date` and
`duration_days` are truthy and `end_date` is falsy, `end_date` is set
to `calculate_end_date(start_date, duration_days)`; otherwise the
supplied `end_date` is kept.  The outer `Option` is an uncaught
exception from `calculate_end_date`. -/
def deriveEnd (m : MedicineCreate) : Option (Option Str) :=
  if truthyStr m.start_date ∧ truthyInt m.duration_days then
    if truthyStr m.end_date then some m.end_date
    else
      match m.start_date, m.duration_days with
      | some s, some d => (calculate_end_date s d).map some
      | _, _ => none
  else some m.end_date

/-- Embeds `db.medicines.find_one` on the `id` field: first match. -/
def findById (db : List Medicine) (i : Str) : Option Medicine :=
  match db with
  | [] => none
  | x :: xs => if x.id == i then some x else findById xs i

/-- Embeds `POST /api/medicines` (`create_medicine`, lines 110-122).  `uuid`
and `now` are the runtime values of `uuid.uuid4()` and the UTC
timestamp.  Returns the new store and the created record. -/
def create_medicine (m : MedicineCreate) (uuid now : Str) (db : List Medicine) :
    Except ApiError (List Medicine × Medicine) :=
  match deriveEnd m with
  | none => .error .internal
  | some ed =>
    let r : Medicine :=
      { toMedicineCreate := { m with end_date := ed },
        id := uuid, created_at := now, updated_at := now }
    .ok (db ++ [r], r)

/-- Embeds `db.medicines.update_one` with a full `$set`: replace the first
record whose id matches. -/
def replaceFirst (db : List Medicine) (i : Str) (r : Medicine) : List Medicine :=
  match db with
  | [] => []
  | x :: xs => if x.id == i then r :: xs else x :: replaceFirst xs i r

/-- Embeds `PUT /api/medicines/{id}` (`update_medicine`, lines 140-153):
look up the record (404 when absent), rebuild every mutable field from
the new input (including the end-date step), keep `id` and
`created_at`, stamp `updated_at := now`, write back, re-read. -/
def update_medicine (i : Str) (m : MedicineCreate) (now : Str) (db : List Medicine) :
    Except ApiError (List Medicine × Medicine) :=
  match findById db i with
  | none => .error .notFound
  | some existing =>
    match deriveEnd m with
    | none => .error .internal
    | some ed =>
      let r : Medicine :=
        { toMedicineCreate := { m with end_date := ed },
          id := existing.id, created_at := existing.created_at, updated_at := now }
      let db2 := replaceFirst db i r
      match findById db2 i with
      | none => .error .internal
      | some u => .ok (db2, u)

/-- Embeds `GET /api/medicines/{id}` (`get_medicine`, lines 133-138). -/
def get_medicine (i : Str) (db : List Medicine) : Except ApiError Medicine :=
  match findById db i with
  | none => .error .notFound
  | some r => .ok r

/-- Embeds `db.medicines.delete_one` on the `id` field: remove the first
match, returning the new store and the deleted count (0 or 1). -/
def deleteFirst (db : List Medicine) (i : Str) : List Medicine × Nat :=
  match db with
  | [] => ([], 0)
  | x :: xs =>
    if x.id == i then (xs, 1)
    else
      let p := deleteFirst xs i
      (x :: p.1, p.2)

/-- Embeds `DELETE /api/medicines/{id}` (`delete_medicine`, lines 155-161). -/
def delete_medicine (i : Str) (db : List Medicine) :
    Except ApiError (List Medicine × Str) :=
  let p := deleteFirst db i
  if p.2 == 0 then .error .notFound else .ok (p.1, i)

/-- Case-insensitive match of one regex character against one subject
character: `.` matches anything, every other character matches itself
up to ASCII case (`$options: 'i'`).  This embeds the fragment of the
regex language without quantifiers, anchors, classes or escapes; it is
exact for patterns whose only metacharacter is `.`. -/
def charMatches (p c : Char) : Bool :=
  p == '.' || p.toLower == c.toLower

/-- Does the pattern match a leading segment of the subject? -/
def matchHere : Str → Str → Bool
  | [], _ => true
  | _ :: _, [] => false
  | p :: ps, c :: cs => charMatches p c && matchHere ps cs

/-- Unanchored case-insensitive regex search, as Mongo `$regex` with
`$options: 'i'` performs on the `tags` field. -/
def regexSearchCI (pat s : Str) : Bool :=
  match s with
  | [] => matchHere pat []
  | _ :: rest => matchHere pat s || regexSearchCI pat rest

/-- One exact-match clause of the Mongo query: built only when the
query parameter is truthy (present and non-empty). -/
def catClause (o : Option Str) (v : Str) : Bool :=
  match o with
  | some c => if c.isEmpty then true else v == c
  | none => true

/-- The tag clause of the Mongo query: a case-insensitive regex
search, built only when the tag parameter is truthy. -/
def tagClause (o : Option Str) (v : Str) : Bool :=
  match o with
  | some g => if g.isEmpty then true else regexSearchCI g v
  | none => true

/-- The filter `get_medicines` builds from its query parameters:
`if category:` / `if type:` / `if tag:` add a clause only for a truthy
(present and non-empty) parameter; category and type are exact
matches, tag is a case-insensitive regex on `tags`. -/
def medMatches (category typ tag : Option Str) (r : Medicine) : Bool :=
  catClause category r.category && catClause typ r.type && tagClause tag r.tags

/-- Embeds `GET /api/medicines` (`get_medicines`, lines 124-131):
`find(query).to_list(1000)` — the matching records, at most 1000. -/
def get_medicines (category typ tag : Option Str) (db : List Medicine) : List Medicine :=
  (db.filter (medMatches category typ tag)).take 1000

/-- Distinct categories of the store in first-occurrence order.  The
order in which Mongo `$group` emits groups is unspecified; the
embedding fixes first-occurrence order, which is immaterial below the
truncation bound and pigeonhole-irrelevant above it. -/
def categoriesOf (db : List Medicine) : List Str :=
  db.foldl (fun acc r => if acc.contains r.category then acc else acc ++ [r.category]) []

/-- Embeds `GET /api/stats` (`get_stats`, lines 199-207): the total record
count and the `$group`-by-category counts, `to_list(100)` keeping at
most 100 groups. -/
def get_stats (db : List Medicine) : Nat × List (Str × Nat) :=
  (db.length,
   ((categoriesOf db).map
      (fun c => (c, (db.filter (fun r => r.category == c)).length))).take 100)

/-! ## Upload endpoint (embedding of `upload_prescription`) -/

/-- An incoming multipart file: client-supplied name, declared content
type, body bytes. -/
structure UploadFile where
  filename : Str
  content_type : Str
  content : List Nat
deriving DecidableEq, Repr

/-- One record of `MockGoogleDriveService.uploads`. -/
structure DriveUpload where
  file_id : Str
  filename : Str
  size : Nat
  mimetype : Str
deriving DecidableEq, Repr

/-- Persistent effects of the upload subsystem: files under the
uploads directory (keyed by relative path) and the mock drive
records. -/
structure UploadState where
  localFiles : List (Str × List Nat)
  driveUploads : List DriveUpload
deriving DecidableEq, Repr

/-- Response model of the upload endpoint. -/
structure PrescriptionUploadResponse where
  file_id : Str
  filename : Str
  shareable_link : Str
  message : Str
deriving DecidableEq, Repr

/-- The closed set of accepted content types (`server.py` line 166). -/
def allowed_types : List Str :=
  [str "image/jpeg", str "image/png", str "image/jpg", str "application/pdf"]

/-- Embeds `open(save_path, "wb")` followed by a write: create or overwrite the file at
key `k`. -/
def writeLocal (files : List (Str × List Nat)) (k : Str) (content : List Nat) :
    List (Str × List Nat) :=
  match files with
  | [] => [(k, content)]
  | x :: xs => if x.1 == k then (k, content) :: xs else x :: writeLocal xs k content

/-- Embeds `POST /api/upload-prescription` (`upload_prescription`, lines
164-197).  `driveId` is the runtime `uuid.uuid4()` of the mock drive
branch.  Returns the state after the request and the response or
error; on error the state is the input state, since both checks raise
before any write. -/
def upload_prescription (localEnabled : Bool) (f : UploadFile) (driveId : Str)
    (st : UploadState) : UploadState × Except ApiError PrescriptionUploadResponse :=
  if f.content_type ∉ allowed_types then
    (st, .error (.unsupportedType f.content_type))
  else if 50 * 1024 * 1024 < f.content.length then
    (st, .error .payloadTooLarge)
  else if localEnabled then
    ({ st with localFiles := writeLocal st.localFiles f.filename f.content },
     .ok ⟨f.filename, f.filename, str "/uploads/" ++ f.filename,
          str "File uploaded successfully to local filesystem."⟩)
  else
    ({ st with driveUploads :=
         st.driveUploads ++ [⟨driveId, f.filename, f.content.length, f.content_type⟩] },
     .ok ⟨driveId, f.filename,
          str "https://drive.google.com/file/d/" ++ driveId ++ str "/view?usp=sharing",
          str "File uploaded successfully (mock mode)."⟩)

/-- Spec-side character class `[a-z0-9._-]` guaranteed for the base
segment of a sanitized filename (46, 95 and 45 are the code points of
the dot, the underscore and the dash). -/
def specBaseChar (c : Char) : Bool :=
  (97 <= c.toNat && c.toNat <= 122) || (48 <= c.toNat && c.toNat <= 57) ||
  c.toNat == 46 || c.toNat == 95 || c.toNat == 45

/-- Lowercase hexadecimal digit, the alphabet of `str(uuid.uuid4())[:8]`. -/
def isHexLowerChar (c : Char) : Bool :=
  (48 <= c.toNat && c.toNat <= 57) || (97 <= c.toNat && c.toNat <= 102)

/-- The metacharacters of the regex language: a pattern avoiding all
of them matches purely literally. -/
def regexMetaChars : Str := str ".^$*+?()[]\x7b\x7d|\\"

/-- A tag pattern containing no regex metacharacter. -/
def hasNoMeta (pat : Str) : Bool :=
  pat.all (fun c => !(regexMetaChars.contains c))

/-- Spec-side notion for the tag filter: the tag occurs as a
case-insensitive substring of the tags field. -/
def specCISubstr (pat s : Str) : Prop :=
  (pat.map Char.toLower) <:+: (s.map Char.toLower)

instance (pat s : Str) : Decidable (specCISubstr pat s) := by
  unfold specCISubstr
  infer_instance

/-- A store with 101 records in 101 distinct categories named by the
decimal digits of 0..100. -/
def store101 : List Medicine :=
  (List.range 101).map (fun i =>
    ⟨⟨Nat.toDigits 10 i, Nat.toDigits 10 i, str "t", str "g", str "p", str "d",
      none, none, none, none, none, none⟩, Nat.toDigits 10 i, str "c", str "u"⟩)

/-- The record that create/update build from input `m`, a derived
end date `ed`, an id and timestamps. -/
def mkStored (m : MedicineCreate) (ed : Option Str) (i ca ua : Str) : Medicine :=
  { toMedicineCreate := { m with end_date := ed }, id := i, created_at := ca, updated_at := ua }

/-! ## Calendar lemmas -/

theorem daysInMonth_pos (y m : Nat) : 1 ≤ daysInMonth y m := by
  unfold daysInMonth
  split_ifs <;> omega

theorem daysInMonth_le (y m : Nat) : daysInMonth y m ≤ 31 := by
  unfold daysInMonth
  split_ifs <;> omega

theorem isLeap_iff (y : Nat) :
    isLeap y = true ↔ (y % 4 = 0 ∧ (y % 100 ≠ 0 ∨ y % 400 = 0)) := by
  simp [isLeap]

theorem daysBeforeYear_succ (y : Nat) (hy : 1 ≤ y) :
    daysBeforeYear (y + 1) = daysBeforeYear y + 365 + (if isLeap y then 1 else 0) := by
  by_cases hl : isLeap y = true
  · rw [if_pos hl]
    rw [isLeap_iff] at hl
    obtain ⟨h4, h1 | h2⟩ := hl <;> (unfold daysBeforeYear; omega)
  · rw [if_neg hl]
    rw [isLeap_iff] at hl
    push_neg at hl
    rcases Nat.eq_zero_or_pos (y % 4) with h4 | h4
    · obtain ⟨h1, h2⟩ := hl h4
      unfold daysBeforeYear
      omega
    · unfold daysBeforeYear
      omega

theorem daysBeforeMonth_succ (y m : Nat) (h1 : 1 ≤ m) (h2 : m ≤ 11) :
    daysBeforeMonth y (m + 1) = daysBeforeMonth y m + daysInMonth y m := by
  interval_cases m <;> by_cases hl : isLeap y = true <;>
    simp [daysBeforeMonth, daysInMonth, hl] <;> omega

theorem dayNumber_nextDay (x : Ymd) (h : x.Valid) :
    dayNumber (nextDay x) = dayNumber x + 1 := by
  obtain ⟨hy, hm1, hm2, hd1, hd2⟩ := h
  unfold nextDay
  split_ifs with hlt hm
  · simp only [dayNumber]
    omega
  · have hde : x.day = daysInMonth x.year x.month := by omega
    simp only [dayNumber]
    rw [daysBeforeMonth_succ x.year x.month hm1 (by omega)]
    omega
  · have hm12 : x.month = 12 := by omega
    have h31 : daysInMonth x.year 12 = 31 := by simp [daysInMonth]
    have hde : x.day = 31 := by
      rw [hm12] at hlt hd2
      omega
    simp only [dayNumber, hde, hm12]
    rw [daysBeforeYear_succ x.year hy]
    by_cases hl : isLeap x.year = true <;> simp [daysBeforeMonth, hl] <;> omega

theorem valid_nextDay (x : Ymd) (h : x.Valid) : (nextDay x).Valid := by
  obtain ⟨hy, hm1, hm2, hd1, hd2⟩ := h
  have hp1 := daysInMonth_pos x.year (x.month + 1)
  have hp2 := daysInMonth_pos (x.year + 1) 1
  unfold nextDay
  split_ifs with hlt hm <;> (unfold Ymd.Valid; dsimp only) <;>
    exact ⟨by omega, by omega, by omega, by omega, by omega⟩

theorem nextDay_iter (n : Nat) (x : Ymd) (h : x.Valid) :
    (nextDay^[n] x).Valid ∧ dayNumber (nextDay^[n] x) = dayNumber x + n := by
  induction n with
  | zero => exact ⟨h, rfl⟩
  | succ k ih =>
    rw [Function.iterate_succ_apply']
    refine ⟨valid_nextDay _ ih.1, ?_⟩
    rw [dayNumber_nextDay _ ih.1, ih.2]
    omega

theorem prevDay_year_eq_zero (x : Ymd) (h : x.year = 0) : (prevDay x).year = 0 := by
  unfold prevDay
  split_ifs <;> simp [h]

theorem prevDay_iter_year_zero (n : Nat) (x : Ymd) (h : x.year = 0) :
    (prevDay^[n] x).year = 0 := by
  induction n with
  | zero => exact h
  | succ k ih =>
    rw [Function.iterate_succ_apply']
    exact prevDay_year_eq_zero _ ih

theorem prevDay_step (x : Ymd) (h : x.Valid) (h1 : 1 ≤ (prevDay x).year) :
    (prevDay x).Valid ∧ dayNumber (prevDay x) + 1 = dayNumber x := by
  obtain ⟨hy, hm1, hm2, hd1, hd2⟩ := h
  unfold prevDay at h1 ⊢
  split_ifs at h1 ⊢ with hd hm
  · constructor
    · unfold Ymd.Valid
      dsimp only
      omega
    · simp only [dayNumber]
      omega
  · have hp := daysInMonth_pos x.year (x.month - 1)
    constructor
    · unfold Ymd.Valid
      dsimp only
      omega
    · simp only [dayNumber]
      have hms : (x.month - 1) + 1 = x.month := by omega
      have hbm := daysBeforeMonth_succ x.year (x.month - 1) (by omega) (by omega)
      rw [hms] at hbm
      omega
  · have hm1' : x.month = 1 := by omega
    have hd1' : x.day = 1 := by omega
    dsimp only at h1
    have h31 : daysInMonth (x.year - 1) 12 = 31 := by simp [daysInMonth]
    constructor
    · unfold Ymd.Valid
      dsimp only
      omega
    · simp only [dayNumber, hm1', hd1']
      have hys : (x.year - 1) + 1 = x.year := by omega
      have hsy := daysBeforeYear_succ (x.year - 1) (by omega)
      rw [hys] at hsy
      by_cases hl : isLeap (x.year - 1) = true <;>
        simp [daysBeforeMonth, hl] at hsy ⊢ <;> omega

theorem prevDay_iter (n : Nat) (x : Ymd) (h : x.Valid)
    (h1 : 1 ≤ (prevDay^[n] x).year) :
    (prevDay^[n] x).Valid ∧ dayNumber (prevDay^[n] x) + n = dayNumber x := by
  induction n generalizing x with
  | zero => exact ⟨h, rfl⟩
  | succ k ih =>
    rw [Function.iterate_succ_apply] at h1 ⊢
    have hpy : 1 ≤ (prevDay x).year := by
      by_contra hc
      have h0 : (prevDay x).year = 0 := by omega
      have := prevDay_iter_year_zero k _ h0
      omega
    obtain ⟨hv, hdn⟩ := prevDay_step x h hpy
    obtain ⟨hv2, hdn2⟩ := ih (prevDay x) hv h1
    exact ⟨hv2, by omega⟩

theorem addDaysChecked_spec (x : Ymd) (hx : x.Valid) (d : Int) (r : Ymd)
    (hr : addDaysChecked x d = some r) :
    r.Valid ∧ (dayNumber r : Int) = (dayNumber x : Int) + d
      ∧ 1 ≤ r.year ∧ r.year ≤ 9999 := by
  simp only [addDaysChecked] at hr
  by_cases hd : 0 ≤ d
  · rw [if_pos hd] at hr
    split_ifs at hr with hrange
    · obtain ⟨hv, hdn⟩ := nextDay_iter d.toNat x hx
      obtain rfl : nextDay^[d.toNat] x = r := by
        injection hr
      refine ⟨hv, ?_, hrange.1, hrange.2⟩
      rw [hdn]
      push_cast
      rw [Int.toNat_of_nonneg hd]
  · rw [if_neg hd] at hr
    split_ifs at hr with hrange
    · obtain ⟨hv, hdn⟩ := prevDay_iter (-d).toNat x hx (by exact_mod_cast hrange.1)
      obtain rfl : prevDay^[(-d).toNat] x = r := by
        injection hr
      refine ⟨hv, ?_, hrange.1, hrange.2⟩
      have hnn : (0 : Int) ≤ -d := by omega
      have := Int.toNat_of_nonneg hnn
      omega

/-! ## Parse lemmas -/

theorem pyFromIsoformat_valid (s : Str) (dt : PyDateTime)
    (hp : pyFromIsoformat s = some dt) : dt.date.Valid ∧ s ≠ [] := by
  unfold pyFromIsoformat at hp
  split at hp
  · rename_i y1 y2 y3 y4 m1 m2 e1 e2 rest
    split at hp
    · rename_i y mo dy hy hmo hdy
      split_ifs at hp with hcond
      · refine ⟨?_, by simp⟩
        split at hp
        · injection hp with hdt
          subst hdt
          exact ⟨hcond.1, hcond.2.1, hcond.2.2.1, hcond.2.2.2.1, hcond.2.2.2.2⟩
        · rename_i tstr
          split_ifs at hp with hemp
          · injection hp with hdt
            subst hdt
            exact ⟨hcond.1, hcond.2.1, hcond.2.2.1, hcond.2.2.2.1, hcond.2.2.2.2⟩
          · rcases Option.map_eq_some'.mp hp with ⟨q, hq1, hq2⟩
            subst hq2
            exact ⟨hcond.1, hcond.2.1, hcond.2.2.1, hcond.2.2.2.1, hcond.2.2.2.2⟩
    · exact absurd hp (by simp)
  · exact absurd hp (by simp)

/-! ## Store lemmas -/

theorem findById_replaceFirst (db : List Medicine) (i : Str) (ex rec : Medicine)
    (hex : findById db i = some ex) (hid : rec.id = i) :
    findById (replaceFirst db i rec) i = some rec := by
  induction db with
  | nil => simp [findById] at hex
  | cons x xs ih =>
    by_cases hx : (x.id == i) = true
    · simp [replaceFirst, findById, hx, hid]
    · simp only [replaceFirst, findById, hx, if_neg, Bool.false_eq_true, if_false] at hex ⊢
      exact ih hex

theorem deleteFirst_of_absent (db : List Medicine) (i : Str)
    (h : findById db i = none) : deleteFirst db i = (db, 0) := by
  induction db with
  | nil => rfl
  | cons x xs ih =>
    simp only [findById] at h
    by_cases hx : (x.id == i) = true
    · simp [hx] at h
    · simp only [hx, Bool.false_eq_true, if_false] at h
      simp [deleteFirst, hx, ih h]

theorem deriveEnd_of_truthy_end (m : MedicineCreate) (e : Str)
    (he : m.end_date = some e) (hene : e ≠ []) :
    deriveEnd m = some (some e) := by
  unfold deriveEnd
  rw [he]
  have ht : truthyStr (some e) = true := by
    simp [truthyStr, hene]
  by_cases h1 : truthyStr m.start_date = true ∧ truthyInt m.duration_days = true
  · rw [if_pos h1, if_pos ht]
  · rw [if_neg h1]

theorem deriveEnd_computed (m : MedicineCreate) (s : Str) (k : Int) (out : Str)
    (hs : m.start_date = some s) (hsne : s ≠ [])
    (hk : m.duration_days = some k) (hkne : k ≠ 0)
    (hend : m.end_date = none)
    (hc : calculate_end_date s k = some out) :
    deriveEnd m = some (some out) := by
  unfold deriveEnd
  rw [hs, hk, hend]
  have hts : truthyStr (some s) = true := by simp [truthyStr, hsne]
  have htk : truthyInt (some k) = true := by simp [truthyInt, hkne]
  simp [hts, htk, truthyStr, hc, hsne]

/-! ## Claim C6 -/

/-- C6 (amended): for every start string accepted by
`datetime.fromisoformat` and every integer duration whose addition
stays inside the supported year range 1..9999 (outside it the addition
raises `OverflowError` instead of returning), `calculate_end_date`
returns the ISO-8601 string of the parsed start moved by exactly that
many calendar days — the result's proleptic Gregorian day number is
the start's day number plus the duration — while hour, minute, second
and UTC offset are returned unchanged (no timezone conversion, no
clamping). -/
theorem claim_C6 (s : Str) (d : Int) (dt : PyDateTime) (r : Ymd)
    (hp : pyFromIsoformat s = some dt) (hr : addDaysChecked dt.date d = some r) :
    calculate_end_date s d
        = some (pyIsoformat ⟨r, dt.hour, dt.minute, dt.second, dt.offMin⟩)
      ∧ (dayNumber r : Int) = (dayNumber dt.date : Int) + d := by
  have hv := (pyFromIsoformat_valid s dt hp).1
  have hspec := addDaysChecked_spec dt.date hv d r hr
  constructor
  · unfold calculate_end_date
    rw [hp]
    simp [hr]
  · exact hspec.2.1

/-- Witness for C6 at the spec's own example:
`deriveEndDate("2024-01-01", 10) = "2024-01-11T00:00:00"`. -/
theorem claim_C6_witness :
    pyFromIsoformat (str "2024-01-01") = some ⟨⟨2024, 1, 1⟩, 0, 0, 0, none⟩
    ∧ addDaysChecked ⟨2024, 1, 1⟩ 10 = some ⟨2024, 1, 11⟩
    ∧ calculate_end_date (str "2024-01-01") 10 = some (str "2024-01-11T00:00:00")
    ∧ (dayNumber ⟨2024, 1, 11⟩ : Int) = (dayNumber ⟨2024, 1, 1⟩ : Int) + 10 := by
  have h := claim_C6 (str "2024-01-01") 10 ⟨⟨2024, 1, 1⟩, 0, 0, 0, none⟩ ⟨2024, 1, 11⟩
    (by decide) (by decide)
  refine ⟨by decide, by decide, ?_, h.2⟩
  rw [h.1]
  decide

/-- Counterexample to C6 as frozen: `"9999-12-31"` is a valid ISO-8601
date the program parses, yet with duration 1 the code raises
`OverflowError` (no string is returned), instead of returning the
ISO string of the next day. -/
theorem claim_C6_cex :
    pyFromIsoformat (str "9999-12-31") = some ⟨⟨9999, 12, 31⟩, 0, 0, 0, none⟩
    ∧ calculate_end_date (str "9999-12-31") 1 = none := by decide

theorem findById_some_id (db : List Medicine) (i : Str) (ex : Medicine)
    (h : findById db i = some ex) : ex.id = i := by
  induction db with
  | nil => simp [findById] at h
  | cons x xs ih =>
    by_cases hx : (x.id == i) = true
    · simp only [findById, hx, if_pos] at h
      injection h with h
      subst h
      exact eq_of_beq hx
    · simp only [findById, hx, Bool.false_eq_true, if_false] at h
      exact ih h

/-! ## Claim C2 -/

/-- C2 (amended): for every create request whose start date parses,
whose duration is a positive integer (Python truthiness skips the
derivation when the duration is 0), whose end date is absent, and
whose derived date stays in the supported year range, the stored
record's end date is the ISO string of the start date moved forward by
exactly the duration in calendar days; the same holds for an update
request, evaluated against the new input values. -/
theorem claim_C2 (m : MedicineCreate) (uuid now i : Str) (db : List Medicine)
    (s : Str) (k : Int) (dt : PyDateTime) (r : Ymd)
    (hs : m.start_date = some s) (hk : m.duration_days = some k) (hkpos : 0 < k)
    (hend : m.end_date = none)
    (hp : pyFromIsoformat s = some dt) (hr : addDaysChecked dt.date k = some r) :
    (∃ rec : Medicine,
        create_medicine m uuid now db = .ok (db ++ [rec], rec)
        ∧ rec.end_date = some (pyIsoformat ⟨r, dt.hour, dt.minute, dt.second, dt.offMin⟩))
    ∧ (∀ ex : Medicine, findById db i = some ex →
        ∃ db2 rec, update_medicine i m now db = .ok (db2, rec)
          ∧ rec.end_date = some (pyIsoformat ⟨r, dt.hour, dt.minute, dt.second, dt.offMin⟩))
    ∧ (dayNumber r : Int) = (dayNumber dt.date : Int) + k := by
  have hvp := pyFromIsoformat_valid s dt hp
  have hc : calculate_end_date s k
      = some (pyIsoformat ⟨r, dt.hour, dt.minute, dt.second, dt.offMin⟩) := by
    unfold calculate_end_date
    rw [hp]
    simp [hr]
  have hde := deriveEnd_computed m s k _ hs hvp.2 hk (by omega) hend hc
  refine ⟨?_, ?_, (addDaysChecked_spec dt.date hvp.1 k r hr).2.1⟩
  · have hcr : create_medicine m uuid now db
        = Except.ok (db ++ [mkStored m
            (some (pyIsoformat ⟨r, dt.hour, dt.minute, dt.second, dt.offMin⟩)) uuid now now],
          mkStored m
            (some (pyIsoformat ⟨r, dt.hour, dt.minute, dt.second, dt.offMin⟩)) uuid now now) := by
      unfold create_medicine mkStored
      simp only [hde]
    exact ⟨_, hcr, rfl⟩
  · intro ex hex
    have hexid : ex.id = i := findById_some_id db i ex hex
    have hrep := findById_replaceFirst db i ex
      (mkStored m
        (some (pyIsoformat ⟨r, dt.hour, dt.minute, dt.second, dt.offMin⟩)) ex.id ex.created_at now)
      hex hexid
    have hu : update_medicine i m now db
        = Except.ok (replaceFirst db i (mkStored m
            (some (pyIsoformat ⟨r, dt.hour, dt.minute, dt.second, dt.offMin⟩)) ex.id ex.created_at now),
          mkStored m
            (some (pyIsoformat ⟨r, dt.hour, dt.minute, dt.second, dt.offMin⟩)) ex.id ex.created_at now) := by
      unfold update_medicine mkStored
      simp only [hex, hde]
      unfold mkStored at hrep
      rw [hrep]
    exact ⟨_, _, hu, rfl⟩

/-- Witness for C2 at the spec's own example: create with
`start_date="2024-01-01", duration_days=5, end_date=None` stores
`end_date = "2024-01-06T00:00:00"`. -/
theorem claim_C2_witness :
    ∃ rec : Medicine,
      create_medicine
        ⟨str "Aspirin", str "Pain", str "Tablet", str "pain", str "relief", str "1x",
         some 5, some (str "2024-01-01"), none, none, none, none⟩
        (str "id-1") (str "now") []
        = .ok ([rec], rec)
      ∧ rec.end_date = some (str "2024-01-06T00:00:00") := by
  have h := claim_C2
    ⟨str "Aspirin", str "Pain", str "Tablet", str "pain", str "relief", str "1x",
     some 5, some (str "2024-01-01"), none, none, none, none⟩
    (str "id-1") (str "now") (str "x") []
    (str "2024-01-01") 5 ⟨⟨2024, 1, 1⟩, 0, 0, 0, none⟩ ⟨2024, 1, 6⟩
    rfl rfl (by norm_num) rfl (by decide) (by decide)
  obtain ⟨rec, hcr, hrec⟩ := h.1
  refine ⟨rec, hcr, ?_⟩
  rw [hrec]
  decide

/-- Counterexample to C2 as frozen: with `start_date="2024-01-01"`,
`duration_days=0` (a non-negative integer) and no end date, the claim
requires the stored end date to be start + 0 days, i.e.
`"2024-01-01T00:00:00"`; the code's truthiness test `if
medicine_dict.get('duration_days')` treats 0 as absent and stores no
end date at all. -/
theorem claim_C2_cex :
    (create_medicine
      ⟨str "Aspirin", str "Pain", str "Tablet", str "pain", str "relief", str "1x",
       some 0, some (str "2024-01-01"), none, none, none, none⟩
      (str "id-1") (str "now") []).toOption.map (fun p => p.2.end_date)
      = some none
    ∧ calculate_end_date (str "2024-01-01") 0 = some (str "2024-01-01T00:00:00") := by
  decide

/-! ## Claim C3 -/

/-- C3: a create or update request that supplies a non-empty end date
stores exactly that end date; the derivation step never overwrites it,
whatever the start date and duration are. -/
theorem claim_C3 (m : MedicineCreate) (uuid now i : Str) (db : List Medicine) (e : Str)
    (he : m.end_date = some e) (hene : e ≠ []) :
    (∃ rec : Medicine,
        create_medicine m uuid now db = .ok (db ++ [rec], rec) ∧ rec.end_date = some e)
    ∧ (∀ ex : Medicine, findById db i = some ex →
        ∃ db2 rec, update_medicine i m now db = .ok (db2, rec) ∧ rec.end_date = some e) := by
  have hde := deriveEnd_of_truthy_end m e he hene
  constructor
  · have hcr : create_medicine m uuid now db
        = Except.ok (db ++ [mkStored m (some e) uuid now now],
          mkStored m (some e) uuid now now) := by
      unfold create_medicine mkStored
      simp only [hde]
    exact ⟨_, hcr, rfl⟩
  · intro ex hex
    have hexid : ex.id = i := findById_some_id db i ex hex
    have hrep := findById_replaceFirst db i ex
      (mkStored m (some e) ex.id ex.created_at now) hex hexid
    have hu : update_medicine i m now db
        = Except.ok (replaceFirst db i (mkStored m (some e) ex.id ex.created_at now),
          mkStored m (some e) ex.id ex.created_at now) := by
      unfold update_medicine mkStored
      simp only [hex, hde]
      unfold mkStored at hrep
      rw [hrep]
    exact ⟨_, _, hu, rfl⟩

/-- Witness for C3: create with start, a duration of 5 and an explicit
end date `"2030-01-01"` keeps the explicit end date. -/
theorem claim_C3_witness :
    ∃ rec : Medicine,
      create_medicine
        ⟨str "Aspirin", str "Pain", str "Tablet", str "pain", str "relief", str "1x",
         some 5, some (str "2024-01-01"), some (str "2030-01-01"), none, none, none⟩
        (str "id-1") (str "now") []
        = .ok ([rec], rec)
      ∧ rec.end_date = some (str "2030-01-01") := by
  have h := claim_C3
    ⟨str "Aspirin", str "Pain", str "Tablet", str "pain", str "relief", str "1x",
     some 5, some (str "2024-01-01"), some (str "2030-01-01"), none, none, none⟩
    (str "id-1") (str "now") (str "x") [] (str "2030-01-01") rfl (by decide)
  exact h.1

/-! ## Claim C7 -/

/-- C7: when no stored record has the requested identifier, single
read, update and delete each fail with `NotFound` (HTTP 404), and the
store is left unchanged (the update raises before writing; the
performed `delete_one` removes nothing). -/
theorem claim_C7 (i : Str) (db : List Medicine) (m : MedicineCreate) (now : Str)
    (h : findById db i = none) :
    get_medicine i db = .error .notFound
    ∧ update_medicine i m now db = .error .notFound
    ∧ delete_medicine i db = .error .notFound
    ∧ deleteFirst db i = (db, 0)
    ∧ ApiError.notFound.status = 404 := by
  have hdel := deleteFirst_of_absent db i h
  refine ⟨?_, ?_, ?_, hdel, rfl⟩
  · unfold get_medicine
    rw [h]
  · unfold update_medicine
    rw [h]
  · unfold delete_medicine
    rw [hdel]
    rfl

/-- Witness for C7 on the empty store. -/
theorem claim_C7_witness :
    get_medicine (str "nope") [] = .error .notFound
    ∧ update_medicine (str "nope")
        ⟨str "n", str "c", str "t", str "g", str "p", str "d",
         none, none, none, none, none, none⟩ (str "now") [] = .error .notFound
    ∧ delete_medicine (str "nope") [] = .error .notFound
    ∧ deleteFirst [] (str "nope") = ([], 0)
    ∧ ApiError.notFound.status = 404 := by
  exact claim_C7 (str "nope") []
    ⟨str "n", str "c", str "t", str "g", str "p", str "d",
     none, none, none, none, none, none⟩ (str "now") rfl

/-! ## Claim C4 -/

/-- C4: an upload fails with `UnsupportedType` (HTTP 400) exactly when
the declared content type is outside the closed allowed set — and it
does so even when the body is also oversized, i.e. the type check runs
first; given an allowed type it fails with `PayloadTooLarge`
(HTTP 413) exactly when the body exceeds 50 MiB (an exactly 50 MiB
body passes); and on either failure the upload state (local files and
drive records) is unchanged. -/
theorem claim_C4 (en : Bool) (f : UploadFile) (driveId : Str) (st : UploadState) :
    ((upload_prescription en f driveId st).2 = .error (.unsupportedType f.content_type)
        ↔ f.content_type ∉ allowed_types)
    ∧ (f.content_type ∉ allowed_types →
        (upload_prescription en f driveId st).2 = .error (.unsupportedType f.content_type))
    ∧ (f.content_type ∈ allowed_types →
        ((upload_prescription en f driveId st).2 = .error .payloadTooLarge
          ↔ 50 * 1024 * 1024 < f.content.length))
    ∧ (∀ e : ApiError, (upload_prescription en f driveId st).2 = .error e →
        (upload_prescription en f driveId st).1 = st)
    ∧ (ApiError.unsupportedType f.content_type).status = 400
    ∧ ApiError.payloadTooLarge.status = 413 := by
  unfold upload_prescription
  by_cases hc : f.content_type ∈ allowed_types
  · rw [if_neg (by simp [hc])]
    by_cases hs : 50 * 1024 * 1024 < f.content.length
    · rw [if_pos hs]
      refine ⟨?_, ?_, ?_, ?_, rfl, rfl⟩ <;> simp [hc, hs]
    · rw [if_neg hs]
      by_cases hen : en = true
      · rw [if_pos hen]
        refine ⟨?_, ?_, ?_, ?_, rfl, rfl⟩ <;> simp [hc, hs]
      · rw [if_neg hen]
        refine ⟨?_, ?_, ?_, ?_, rfl, rfl⟩ <;> simp [hc, hs]
  · rw [if_pos hc]
    refine ⟨?_, ?_, ?_, ?_, rfl, rfl⟩ <;> simp [hc]

/-- Witness for C4: a 50 MiB PDF is accepted; a `text/plain` upload is
rejected with 400 even at tiny size; an oversized PDF is rejected with
413; all three leave the state unchanged when failing. -/
theorem claim_C4_witness :
    ((upload_prescription false ⟨str "a.txt", str "text/plain", [1]⟩ (str "d")
        ⟨[], []⟩).2 = .error (.unsupportedType (str "text/plain")))
    ∧ ((upload_prescription false ⟨str "a.pdf", str "application/pdf",
          List.replicate (50 * 1024 * 1024 + 1) 0⟩ (str "d") ⟨[], []⟩).2
        = .error .payloadTooLarge)
    ∧ ((upload_prescription false ⟨str "a.pdf", str "application/pdf",
          List.replicate (50 * 1024 * 1024) 0⟩ (str "d") ⟨[], []⟩).2
        ≠ .error .payloadTooLarge)
    ∧ ((upload_prescription false ⟨str "a.txt", str "text/plain", [1]⟩ (str "d")
        ⟨[], []⟩).1 = ⟨[], []⟩) := by
  have h1 := claim_C4 false ⟨str "a.txt", str "text/plain", [1]⟩ (str "d") ⟨[], []⟩
  have h2 := claim_C4 false ⟨str "a.pdf", str "application/pdf",
    List.replicate (50 * 1024 * 1024 + 1) 0⟩ (str "d") ⟨[], []⟩
  have h3 := claim_C4 false ⟨str "a.pdf", str "application/pdf",
    List.replicate (50 * 1024 * 1024) 0⟩ (str "d") ⟨[], []⟩
  refine ⟨h1.2.1 (by decide), ?_, ?_, h1.2.2.2.1 _ (h1.2.1 (by decide))⟩
  · refine (h2.2.2.1 (by decide)).mpr ?_
    rw [List.length_replicate]
    omega
  · intro hbad
    have hlt := (h3.2.2.1 (by decide)).mp hbad
    rw [List.length_replicate] at hlt
    omega

/-! ## Claim C1 -/

theorem writeLocal_mem (files : List (Str × List Nat)) (k : Str) (content : List Nat) :
    (k, content) ∈ writeLocal files k content := by
  induction files with
  | nil => simp [writeLocal]
  | cons x xs ih =>
    unfold writeLocal
    by_cases hx : (x.1 == k) = true
    · simp [hx]
    · simp only [hx, Bool.false_eq_true, if_false, List.mem_cons]
      exact Or.inr ih

/-- C1 (amended): an accepted upload in local-filesystem mode writes
the file under the uploads directory with a storage key equal to the
client-supplied filename taken as-is — `generate_filename` is never
invoked — and the returned shareable link is `/uploads/` followed by
that original filename. -/
theorem claim_C1 (f : UploadFile) (driveId : Str) (st : UploadState)
    (hc : f.content_type ∈ allowed_types)
    (hs : f.content.length ≤ 50 * 1024 * 1024) :
    upload_prescription true f driveId st
      = ({ st with localFiles := writeLocal st.localFiles f.filename f.content },
         .ok ⟨f.filename, f.filename, str "/uploads/" ++ f.filename,
              str "File uploaded successfully to local filesystem."⟩)
    ∧ (f.filename, f.content) ∈ writeLocal st.localFiles f.filename f.content := by
  refine ⟨?_, writeLocal_mem st.localFiles f.filename f.content⟩
  unfold upload_prescription
  rw [if_neg (by simp [hc]), if_neg (by omega), if_pos rfl]

/-- Witness for C1 at a concrete accepted upload. -/
theorem claim_C1_witness :
    upload_prescription true ⟨str "My Report.PDF", str "application/pdf", [1, 2, 3]⟩
        (str "d") ⟨[], []⟩
      = (⟨[(str "My Report.PDF", [1, 2, 3])], []⟩,
         .ok ⟨str "My Report.PDF", str "My Report.PDF", str "/uploads/My Report.PDF",
              str "File uploaded successfully to local filesystem."⟩) := by
  have h := claim_C1 ⟨str "My Report.PDF", str "application/pdf", [1, 2, 3]⟩
    (str "d") ⟨[], []⟩ (by decide) (by decide)
  rw [h.1]
  rfl

/-- Counterexample to C1 as frozen: the accepted local-mode upload of
`"My Report.PDF"` is stored and linked under the raw name
`"My Report.PDF"`, which no output of the Filename Sanitizer
(`generate_filename`) on that input can equal — every such output
starts with the sanitized lowercase base `my_report`. -/
theorem claim_C1_cex :
    ((upload_prescription true ⟨str "My Report.PDF", str "application/pdf", [1, 2, 3]⟩
        (str "d") ⟨[], []⟩).1.localFiles = [(str "My Report.PDF", [1, 2, 3])])
    ∧ ((upload_prescription true ⟨str "My Report.PDF", str "application/pdf", [1, 2, 3]⟩
        (str "d") ⟨[], []⟩).2
        = .ok ⟨str "My Report.PDF", str "My Report.PDF", str "/uploads/My Report.PDF",
               str "File uploaded successfully to local filesystem."⟩)
    ∧ ∀ ts tok : Str, generate_filename (str "My Report.PDF") ts tok ≠ str "My Report.PDF" := by
  refine ⟨by rfl, by rfl, ?_⟩
  intro ts tok h
  have hg : generate_filename (str "My Report.PDF") ts tok
      = str "my_report" ++ ['_'] ++ ts ++ ['_'] ++ tok ++ str ".pdf" := rfl
  rw [hg] at h
  have h4 : some 'm' = some 'M' := congrArg List.head? h
  simp at h4

/-! ## Claim C5 -/

theorem toNat_ofNat_valid (n : Nat) (h : n < 55296) : (Char.ofNat n).toNat = n := by
  have hv : n.isValidChar := Or.inl h
  unfold Char.ofNat
  rw [dif_pos hv]
  rfl

theorem toLower_toNat_of_upper (c : Char) (h65 : 65 ≤ c.toNat) (h90 : c.toNat ≤ 90) :
    (Char.toLower c).toNat = c.toNat + 32 := by
  unfold Char.toLower
  rw [if_pos ⟨h65, h90⟩]
  exact toNat_ofNat_valid _ (by omega)

theorem toLower_eq_self (c : Char) (h : ¬(65 ≤ c.toNat ∧ c.toNat ≤ 90)) :
    Char.toLower c = c := by
  unfold Char.toLower
  rw [if_neg h]

theorem specBaseChar_of_sub (c : Char) :
    specBaseChar (Char.toLower (if isAllowedChar c then c else '_')) = true := by
  by_cases ha : isAllowedChar c = true
  · rw [if_pos ha]
    unfold isAllowedChar at ha
    simp only [Bool.or_eq_true, Bool.and_eq_true, decide_eq_true_eq, beq_iff_eq] at ha
    rcases ha with ((((⟨h1, h2⟩ | ⟨h1, h2⟩) | ⟨h1, h2⟩) | h1) | h1) | h1
    · have ht := toLower_toNat_of_upper c h1 h2
      unfold specBaseChar
      simp only [Bool.or_eq_true, Bool.and_eq_true, decide_eq_true_eq, beq_iff_eq, ht]
      omega
    · rw [toLower_eq_self c (by omega)]
      unfold specBaseChar
      simp only [Bool.or_eq_true, Bool.and_eq_true, decide_eq_true_eq, beq_iff_eq]
      omega
    · rw [toLower_eq_self c (by omega)]
      unfold specBaseChar
      simp only [Bool.or_eq_true, Bool.and_eq_true, decide_eq_true_eq, beq_iff_eq]
      omega
    · subst h1
      decide
    · subst h1
      decide
    · subst h1
      decide
  · rw [if_neg ha]
    decide

theorem mem_of_mem_stripBoth (ch : Char) (l : Str) (x : Char)
    (h : x ∈ stripBoth ch l) : x ∈ l := by
  unfold stripBoth at h
  rw [List.mem_reverse] at h
  have h2 := (List.dropWhile_sublist _).subset h
  rw [List.mem_reverse] at h2
  exact (List.dropWhile_sublist _).subset h2

/-- C5: every sanitized filename has the shape
`<base>_<timestamp>_<token><lowercased extension>`, where the
timestamp is the 14-digit UTC second stamp and the token 8 lowercase
hex characters; the base contains only characters from `[a-z0-9._-]`;
and the output is never empty, even when the base sanitizes to the
empty string. -/
theorem claim_C5 (fname ts tok : Str)
    (hts1 : ts.length = 14) (hts2 : ts.all Char.isDigit = true)
    (htok1 : tok.length = 8) (htok2 : tok.all isHexLowerChar = true) :
    ∃ base : Str,
      generate_filename fname ts tok
        = base ++ ['_'] ++ ts ++ ['_'] ++ tok ++ (splitext fname).2.map Char.toLower
      ∧ base.all specBaseChar = true
      ∧ generate_filename fname ts tok ≠ [] := by
  refine ⟨(stripBoth '_'
      ((splitext fname).1.map (fun c => if isAllowedChar c then c else '_'))).map Char.toLower,
    rfl, ?_, ?_⟩
  · rw [List.all_eq_true]
    intro x hx
    rw [List.mem_map] at hx
    obtain ⟨y, hy, rfl⟩ := hx
    have hy2 := mem_of_mem_stripBoth '_' _ y hy
    rw [List.mem_map] at hy2
    obtain ⟨c, _, rfl⟩ := hy2
    exact specBaseChar_of_sub c
  · intro hcon
    simp [generate_filename, List.append_eq_nil] at hcon

/-- Witness for C5 at a concrete filename, timestamp and token. -/
theorem claim_C5_witness :
    generate_filename (str "My Report.PDF") (str "20240101123456") (str "abcd1234")
      = str "my_report_20240101123456_abcd1234.pdf"
    ∧ generate_filename (str "My Report.PDF") (str "20240101123456") (str "abcd1234") ≠ [] := by
  obtain ⟨base, h1, h2, h3⟩ := claim_C5 (str "My Report.PDF") (str "20240101123456")
    (str "abcd1234") (by decide) (by decide) (by decide) (by decide)
  exact ⟨by decide, h3⟩

/-! ## Claim C8 -/

theorem matchHere_iff (pat : Str) :
    ∀ s : Str, hasNoMeta pat = true →
      (matchHere pat s = true ↔ (pat.map Char.toLower) <+: (s.map Char.toLower)) := by
  induction pat with
  | nil =>
    intro s _
    simp [matchHere]
  | cons p ps ih =>
    intro s h
    have hp : regexMetaChars.contains p = false := by
      unfold hasNoMeta at h
      rw [List.all_eq_true] at h
      simpa using h p (by simp)
    have hps : hasNoMeta ps = true := by
      unfold hasNoMeta at h ⊢
      rw [List.all_eq_true] at h ⊢
      intro x hx
      exact h x (by simp [hx])
    have hpd : (p == '.') = false := by
      by_contra hc
      rw [Bool.not_eq_false, beq_iff_eq] at hc
      subst hc
      rw [show regexMetaChars.contains '.' = true from by decide] at hp
      exact Bool.noConfusion hp
    cases s with
    | nil => simp [matchHere]
    | cons c cs =>
      simp only [matchHere, charMatches, hpd, Bool.false_or, Bool.and_eq_true, beq_iff_eq,
        List.map_cons, List.cons_prefix_cons]
      rw [ih cs hps]

theorem regexSearchCI_iff (pat s : Str) (h : hasNoMeta pat = true) :
    regexSearchCI pat s = true ↔ specCISubstr pat s := by
  unfold specCISubstr
  induction s with
  | nil =>
    simp only [regexSearchCI, List.map_nil]
    rw [matchHere_iff pat [] h]
    simp
  | cons c cs ih =>
    simp only [regexSearchCI, Bool.or_eq_true, List.map_cons]
    rw [matchHere_iff pat (c :: cs) h, ih, List.infix_cons_iff, List.map_cons]

theorem optFilter_iff (o : Option Str) (v : Str) (ho : o ≠ some []) :
    catClause o v = true ↔ (∀ c, o = some c → v = c) := by
  rcases o with _ | c
  · simp [catClause]
  · have hc : c ≠ [] := fun hq => ho (by rw [hq])
    have he : c.isEmpty = false := by
      cases c
      · exact absurd rfl hc
      · rfl
    simp [catClause, he, beq_iff_eq]

theorem tagFilter_iff (o : Option Str) (v : Str) (ho : o ≠ some [])
    (hm : ∀ t, o = some t → hasNoMeta t = true) :
    tagClause o v = true ↔ (∀ g, o = some g → specCISubstr g v) := by
  rcases o with _ | g
  · simp [tagClause]
  · have hg : g ≠ [] := fun hq => ho (by rw [hq])
    have he : g.isEmpty = false := by
      cases g
      · exact absurd rfl hg
      · rfl
    simp only [tagClause, he, Bool.false_eq_true, if_false]
    rw [regexSearchCI_iff g v (hm g rfl)]
    simp

/-- C8 (amended): a list request returns a stored record exactly when
it satisfies the conjunction of the supplied filters — category and
type by exact equality, the tag by a case-insensitive match on the
tags field — provided the tag contains no regex metacharacter (the
code passes the tag to the store as a case-insensitive regular
expression, which coincides with substring containment exactly for
metacharacter-free tags) and at most 1000 records match; absent
filters impose no constraint. -/
theorem claim_C8 (db : List Medicine) (cat typ tag : Option Str) (rec : Medicine)
    (hcat : cat ≠ some []) (htyp : typ ≠ some []) (htag : tag ≠ some [])
    (hmeta : ∀ t, tag = some t → hasNoMeta t = true)
    (hlen : (db.filter (medMatches cat typ tag)).length ≤ 1000) :
    rec ∈ get_medicines cat typ tag db
      ↔ rec ∈ db
        ∧ (∀ c, cat = some c → rec.category = c)
        ∧ (∀ t, typ = some t → rec.type = t)
        ∧ (∀ g, tag = some g → specCISubstr g rec.tags) := by
  have hm : medMatches cat typ tag rec = true ↔
      ((∀ c, cat = some c → rec.category = c)
        ∧ (∀ t, typ = some t → rec.type = t)
        ∧ (∀ g, tag = some g → specCISubstr g rec.tags)) := by
    unfold medMatches
    rw [Bool.and_eq_true, Bool.and_eq_true]
    rw [optFilter_iff cat rec.category hcat, optFilter_iff typ rec.type htyp,
      tagFilter_iff tag rec.tags htag hmeta, and_assoc]
  unfold get_medicines
  rw [List.take_of_length_le hlen, List.mem_filter, hm]

/-- Witness for C8: an exact category match combined with a
case-insensitive tag match (`"PAIN"` against tags `"muscle pain"`)
returns the record. -/
theorem claim_C8_witness :
    (⟨⟨str "n", str "Pain", str "Tablet", str "muscle pain", str "p", str "d",
       none, none, none, none, none, none⟩, str "i1", str "c", str "u"⟩ : Medicine)
      ∈ get_medicines (some (str "Pain")) none (some (str "PAIN"))
          [⟨⟨str "n", str "Pain", str "Tablet", str "muscle pain", str "p", str "d",
             none, none, none, none, none, none⟩, str "i1", str "c", str "u"⟩] := by
  refine (claim_C8 _ _ _ _ _ (by decide) (by decide) (by decide)
      (fun t ht => by obtain rfl := Option.some.inj ht; decide) (by decide)).mpr
    ⟨by decide, fun c hc => by obtain rfl := Option.some.inj hc; decide,
      fun t ht => Option.noConfusion ht,
      fun g hg => by obtain rfl := Option.some.inj hg; decide⟩

/-- Counterexample to C8 as frozen: with tag filter `"a.c"` the record
whose tags field is `"abc"` is returned (the tag is interpreted as a
regular expression, whose dot matches `b`), yet `"a.c"` is not a
case-insensitive substring of `"abc"`. -/
theorem claim_C8_cex :
    get_medicines none none (some (str "a.c"))
        [⟨⟨str "n", str "x", str "y", str "abc", str "p", str "d",
           none, none, none, none, none, none⟩, str "i1", str "c", str "u"⟩]
      = [⟨⟨str "n", str "x", str "y", str "abc", str "p", str "d",
           none, none, none, none, none, none⟩, str "i1", str "c", str "u"⟩]
    ∧ ¬ specCISubstr (str "a.c") (str "abc") := by
  constructor
  · decide
  · decide

/-! ## Claim C9 -/

theorem categoriesOf_go (db : List Medicine) (acc : List Str) (c : Str) :
    c ∈ db.foldl (fun a r => if a.contains r.category then a else a ++ [r.category]) acc
      ↔ c ∈ acc ∨ c ∈ db.map (fun r => r.category) := by
  induction db generalizing acc with
  | nil => simp
  | cons x xs ih =>
    simp only [List.foldl_cons, List.map_cons, List.mem_cons]
    by_cases hx : acc.contains x.category = true
    · rw [if_pos hx, ih]
      have hmem : x.category ∈ acc := by
        rw [List.elem_iff] at hx
        exact hx
      constructor
      · rintro (h | h)
        · exact Or.inl h
        · exact Or.inr (Or.inr h)
      · rintro (h | h | h)
        · exact Or.inl h
        · exact Or.inl (h ▸ hmem)
        · exact Or.inr h
    · rw [if_neg hx, ih]
      simp only [List.mem_append, List.mem_singleton]
      tauto

theorem mem_categoriesOf (db : List Medicine) (c : Str) :
    c ∈ categoriesOf db ↔ c ∈ db.map (fun r => r.category) := by
  unfold categoriesOf
  rw [categoriesOf_go]
  simp

/-- C9 (amended): as long as the records span at most 100 distinct
categories (the `$group` stage is read with `to_list(100)`), the stats
response reports the total number of records, and its per-category
grouping contains a pair `(c, n)` exactly when some record has
category `c` and `n` is the exact number of records with that
category; categories with no records never appear. -/
theorem claim_C9 (db : List Medicine)
    (hlen : (categoriesOf db).length ≤ 100) :
    (get_stats db).1 = db.length
    ∧ ∀ c n, ((c, n) ∈ (get_stats db).2
        ↔ c ∈ db.map (fun r => r.category)
          ∧ n = (db.filter (fun r => r.category == c)).length) := by
  refine ⟨rfl, ?_⟩
  intro c n
  unfold get_stats
  rw [List.take_of_length_le (by simpa using hlen), List.mem_map]
  constructor
  · rintro ⟨c2, hc2, heq⟩
    rw [Prod.mk.injEq] at heq
    obtain ⟨rfl, rfl⟩ := heq
    exact ⟨(mem_categoriesOf db c2).mp hc2, rfl⟩
  · rintro ⟨hc, rfl⟩
    exact ⟨c, (mem_categoriesOf db c).mpr hc, rfl⟩

/-- Witness for C9 at the spec's own example: 3 records in category
`"A"` and 2 in `"B"` give total 5 with counts `A = 3`, `B = 2`. -/
theorem claim_C9_witness :
    (get_stats
      [⟨⟨str "n1", str "A", str "t", str "g", str "p", str "d",
         none, none, none, none, none, none⟩, str "i1", str "c", str "u"⟩,
       ⟨⟨str "n2", str "A", str "t", str "g", str "p", str "d",
         none, none, none, none, none, none⟩, str "i2", str "c", str "u"⟩,
       ⟨⟨str "n3", str "A", str "t", str "g", str "p", str "d",
         none, none, none, none, none, none⟩, str "i3", str "c", str "u"⟩,
       ⟨⟨str "n4", str "B", str "t", str "g", str "p", str "d",
         none, none, none, none, none, none⟩, str "i4", str "c", str "u"⟩,
       ⟨⟨str "n5", str "B", str "t", str "g", str "p", str "d",
         none, none, none, none, none, none⟩, str "i5", str "c", str "u"⟩]).1 = 5
    ∧ (str "A", 3) ∈ (get_stats
      [⟨⟨str "n1", str "A", str "t", str "g", str "p", str "d",
         none, none, none, none, none, none⟩, str "i1", str "c", str "u"⟩,
       ⟨⟨str "n2", str "A", str "t", str "g", str "p", str "d",
         none, none, none, none, none, none⟩, str "i2", str "c", str "u"⟩,
       ⟨⟨str "n3", str "A", str "t", str "g", str "p", str "d",
         none, none, none, none, none, none⟩, str "i3", str "c", str "u"⟩,
       ⟨⟨str "n4", str "B", str "t", str "g", str "p", str "d",
         none, none, none, none, none, none⟩, str "i4", str "c", str "u"⟩,
       ⟨⟨str "n5", str "B", str "t", str "g", str "p", str "d",
         none, none, none, none, none, none⟩, str "i5", str "c", str "u"⟩]).2
    ∧ (str "B", 2) ∈ (get_stats
      [⟨⟨str "n1", str "A", str "t", str "g", str "p", str "d",
         none, none, none, none, none, none⟩, str "i1", str "c", str "u"⟩,
       ⟨⟨str "n2", str "A", str "t", str "g", str "p", str "d",
         none, none, none, none, none, none⟩, str "i2", str "c", str "u"⟩,
       ⟨⟨str "n3", str "A", str "t", str "g", str "p", str "d",
         none, none, none, none, none, none⟩, str "i3", str "c", str "u"⟩,
       ⟨⟨str "n4", str "B", str "t", str "g", str "p", str "d",
         none, none, none, none, none, none⟩, str "i4", str "c", str "u"⟩,
       ⟨⟨str "n5", str "B", str "t", str "g", str "p", str "d",
         none, none, none, none, none, none⟩, str "i5", str "c", str "u"⟩]).2 := by
  have h := claim_C9
    [⟨⟨str "n1", str "A", str "t", str "g", str "p", str "d",
       none, none, none, none, none, none⟩, str "i1", str "c", str "u"⟩,
     ⟨⟨str "n2", str "A", str "t", str "g", str "p", str "d",
       none, none, none, none, none, none⟩, str "i2", str "c", str "u"⟩,
     ⟨⟨str "n3", str "A", str "t", str "g", str "p", str "d",
       none, none, none, none, none, none⟩, str "i3", str "c", str "u"⟩,
     ⟨⟨str "n4", str "B", str "t", str "g", str "p", str "d",
       none, none, none, none, none, none⟩, str "i4", str "c", str "u"⟩,
     ⟨⟨str "n5", str "B", str "t", str "g", str "p", str "d",
       none, none, none, none, none, none⟩, str "i5", str "c", str "u"⟩] (by decide)
  exact ⟨h.1, (h.2 (str "A") 3).mpr (by decide), (h.2 (str "B") 2).mpr (by decide)⟩

/-- Counterexample to C9 as frozen: in a store whose records span 101
distinct categories, category `"100"` is present among the records but
absent from the truncated grouping, so it does not map to its count. -/
theorem claim_C9_cex :
    (str "100") ∈ store101.map (fun r => r.category)
    ∧ ((get_stats store101).2.all (fun p => !(p.1 == str "100"))) = true := by
  constructor
  · decide
  · decide

/-! ## Claim C10 -/

/-- C10: a list request returns at most 1000 records and the stats
grouping has at most 100 entries, however large the store; a filter
supplied as the empty string is treated exactly like an absent filter. -/
theorem claim_C10 (db : List Medicine) (cat typ tag : Option Str) :
    (get_medicines cat typ tag db).length ≤ 1000
    ∧ (get_stats db).2.length ≤ 100
    ∧ get_medicines (some []) typ tag db = get_medicines none typ tag db
    ∧ get_medicines cat (some []) tag db = get_medicines cat none tag db
    ∧ get_medicines cat typ (some []) db = get_medicines cat typ none db := by
  refine ⟨?_, ?_, rfl, rfl, rfl⟩
  · unfold get_medicines
    simpa using List.length_take_le 1000 (db.filter (medMatches cat typ tag))
  · unfold get_stats
    simpa using List.length_take_le 100 _
